import Mathlib

/-!
Verification of the MoonSlicerCLI repository against its natural-language
specification.  Python source files are shallowly embedded: strings are
modelled as `List Char` (scripts and prompts are ASCII in every claim),
pure functions become Lean functions, stateful code becomes explicit state
passing, and sources of nondeterminism (random number generator output,
wall-clock timestamps, hash digests) become explicit parameters.
-/

/-! ## Shared character-list utilities

Python `str` operations used throughout the repository, modelled on
`List Char`.  `lowerChars` is `str.lower`, `prefOf` is `str.startswith`,
`occursIn` is the Python `in` substring test.
-/

/-- Python `str.lower` (the repository only lowercases ASCII text). -/
def lowerChars (s : List Char) : List Char := s.map Char.toLower

/-- `prefOf pat s` : `pat` starts the list `s` (Python `str.startswith`). -/
def prefOf : List Char → List Char → Bool
  | [], _ => true
  | _ :: _, [] => false
  | c :: cs, d :: ds => c == d && prefOf cs ds

/-- `occursIn pat s` : `pat` occurs contiguously in `s` (Python `pat in s`). -/
def occursIn (pat : List Char) : List Char → Bool
  | [] => prefOf pat []
  | c :: cs => prefOf pat (c :: cs) || occursIn pat cs

/-! ## src/backend/main.py — keyword prompt routing (`route_prompt`) -/

/-- `route_prompt` from src/backend/main.py lines 25-31: lowercase the
prompt, route "python"/"automation" prompts to deepseek,
"repo"/"multi-file"/"github" prompts to starcoder2, all else to mistral. -/
def route_prompt (prompt : String) : String :=
  let p := lowerChars prompt.toList
  if occursIn "python".toList p || occursIn "automation".toList p then
    "deepseek"
  else if occursIn "repo".toList p || occursIn "multi-file".toList p ||
      occursIn "github".toList p then
    "starcoder2"
  else
    "mistral"

/-! ## src/ai_module/ai_interface.py — `AIInterface._select_best_model` -/

/-- `_select_best_model` from src/ai_module/ai_interface.py lines 210-220:
route by keyword sets ["python","automation","scripting"] → deepseek,
["repo","multi-file","github","complex"] → starcoder2, else mistral. -/
def select_best_model (user_request : String) : String :=
  let r := lowerChars user_request.toList
  if ["python", "automation", "scripting"].any (fun k => occursIn k.toList r) then
    "deepseek"
  else if ["repo", "multi-file", "github", "complex"].any
      (fun k => occursIn k.toList r) then
    "starcoder2"
  else
    "mistral"

/-- C8: keyword routing is a deterministic function of the prompt text, and
on the three spec exemplar prompts both the gateway router and the AI
interface's model selector pick deepseek, starcoder2 and mistral
respectively. -/
theorem C8_routing_deterministic_exemplars :
    route_prompt "write a python automation script" = "deepseek" ∧
    select_best_model "write a python automation script" = "deepseek" ∧
    route_prompt "help me manage a multi-file github repo" = "starcoder2" ∧
    select_best_model "help me manage a multi-file github repo" = "starcoder2" ∧
    route_prompt "make a block disappear" = "mistral" ∧
    select_best_model "make a block disappear" = "mistral" := by
  refine ⟨?_, ?_, ?_, ?_, ?_, ?_⟩ <;> decide

/-! ## src/executor/anti_cheat_bypass.py — pattern detection and risk level

`AntiCheatBypass.bypass_patterns` (lines 19-49) is four categories of
literal patterns (the regexes contain no metacharacters beyond an escaped
dot, so each is a plain case-insensitive substring).  `_detect_patterns`
(lines 96-110) runs `re.findall` per pattern; the claims depend only on
the number of matches per category, so each category is modelled by its
total non-overlapping match count.
-/

/-- One-character-at-a-time scanner behind `countOccur`: `skip` is the
number of positions still covered by the previous match (so that matches
are counted non-overlapping, as `re.findall` does for a literal). -/
def countSkip (pat : List Char) : Nat → List Char → Nat
  | _, [] => 0
  | k + 1, _ :: cs => countSkip pat k cs
  | 0, c :: cs =>
    if prefOf pat (c :: cs) then 1 + countSkip pat (pat.length - 1) cs
    else countSkip pat 0 cs

/-- Non-overlapping occurrence count of a literal pattern, scanning left to
right and skipping past each match (the behaviour of `re.findall` on a
literal, nonempty pattern — every pattern in the repository is nonempty). -/
def countOccur (pat s : List Char) : Nat := countSkip pat 0 s

/-- `bypass_patterns["vm_detection"]` (lines 20-28). -/
def vm_detection_pats : List String :=
  ["getfenv", "setfenv", "debug.getinfo", "debug.getupvalue",
   "debug.setupvalue", "debug.getlocal", "debug.setlocal"]

/-- `bypass_patterns["execution_detection"]` (lines 29-36). -/
def execution_detection_pats : List String :=
  ["loadstring", "dofile", "loadfile", "require", "pcall", "xpcall"]

/-- `bypass_patterns["memory_detection"]` (lines 37-42). -/
def memory_detection_pats : List String :=
  ["collectgarbage", "gcinfo", "getmetatable", "setmetatable"]

/-- `bypass_patterns["io_detection"]` (lines 43-48). -/
def io_detection_pats : List String :=
  ["io.", "os.", "file.", "fs."]

/-- Total `re.findall` match count over one category's patterns
(case-insensitive: both pattern literals and input are lowercased). -/
def catCount (pats : List String) (s : List Char) : Nat :=
  (pats.map (fun p => countOccur p.toList (lowerChars s))).sum

/-- The result of `_detect_patterns`: the source returns a dict mapping
each category with at least one match to the list of matched substrings;
the claims depend only on the per-category match counts, which are
modelled here (a category is "present" in the source dict iff its count
is positive). -/
structure DetectedPatterns where
  vm_detection : Nat
  execution_detection : Nat
  memory_detection : Nat
  io_detection : Nat
deriving DecidableEq

/-- Sum of all matched-pattern counts: `sum(len(patterns) for patterns in
detected_patterns.values())` (lines 430 and 439). -/
def DetectedPatterns.total (d : DetectedPatterns) : Nat :=
  d.vm_detection + d.execution_detection + d.memory_detection + d.io_detection

/-- `AntiCheatBypass._detect_patterns` / `detect_anti_cheat`
(lines 96-110, 419-421) on a character list. -/
def detectPatternsL (s : List Char) : DetectedPatterns :=
  { vm_detection := catCount vm_detection_pats s
    execution_detection := catCount execution_detection_pats s
    memory_detection := catCount memory_detection_pats s
    io_detection := catCount io_detection_pats s }

/-- `AntiCheatBypass.detect_anti_cheat` on a string. -/
def detect_anti_cheat (s : String) : DetectedPatterns :=
  detectPatternsL s.toList

/-- The four risk labels returned by `_calculate_risk_level`. -/
inductive RiskLevel
  | LOW
  | MEDIUM
  | HIGH
  | CRITICAL
deriving DecidableEq

/-- Position of a risk label in the order LOW < MEDIUM < HIGH < CRITICAL. -/
def RiskLevel.rank : RiskLevel → Nat
  | .LOW => 0
  | .MEDIUM => 1
  | .HIGH => 2
  | .CRITICAL => 3

/-- `AntiCheatBypass._calculate_risk_level` (lines 437-448): 0 matches →
LOW, ≤3 → MEDIUM, ≤7 → HIGH, otherwise CRITICAL. -/
def calculate_risk_level (detected : DetectedPatterns) : RiskLevel :=
  if detected.total = 0 then .LOW
  else if detected.total ≤ 3 then .MEDIUM
  else if detected.total ≤ 7 then .HIGH
  else .CRITICAL

/-- `AntiCheatBypass._should_obfuscate` (lines 316-332): true iff one of
five obvious anti-cheat keywords occurs in the lowercased script. -/
def should_obfuscate (s : List Char) : Bool :=
  ["getfenv", "setfenv", "debug", "loadstring", "dofile"].any
    (fun p => occursIn p.toList (lowerChars s))

/-- The report built by `AntiCheatBypass.get_bypass_report` (lines 423-435). -/
structure BypassReport where
  script_length : Nat
  detected_patterns : DetectedPatterns
  pattern_count : Nat
  needs_obfuscation : Bool
  risk_level : RiskLevel
deriving DecidableEq

/-- `AntiCheatBypass.get_bypass_report` (lines 423-435). -/
def get_bypass_report (s : String) : BypassReport :=
  let detected := detect_anti_cheat s
  { script_length := s.toList.length
    detected_patterns := detected
    pattern_count := detected.total
    needs_obfuscation := should_obfuscate s.toList
    risk_level := calculate_risk_level detected }

/-- Threshold characterisation of `calculate_risk_level` as a function of
the total match count. -/
theorem calculate_risk_level_thresholds (d : DetectedPatterns) :
    (calculate_risk_level d = .LOW ↔ d.total = 0) ∧
    (calculate_risk_level d = .MEDIUM ↔ 1 ≤ d.total ∧ d.total ≤ 3) ∧
    (calculate_risk_level d = .HIGH ↔ 4 ≤ d.total ∧ d.total ≤ 7) ∧
    (calculate_risk_level d = .CRITICAL ↔ 8 ≤ d.total) := by
  unfold calculate_risk_level
  split_ifs <;> refine ⟨?_, ?_, ?_, ?_⟩ <;> simp <;> omega

/-- `calculate_risk_level` is monotone in the total count under the rank
order LOW < MEDIUM < HIGH < CRITICAL. -/
theorem calculate_risk_level_mono (d e : DetectedPatterns)
    (h : d.total ≤ e.total) :
    (calculate_risk_level d).rank ≤ (calculate_risk_level e).rank := by
  unfold calculate_risk_level
  split_ifs <;> simp [RiskLevel.rank] <;> omega

/-- C9: in every bypass report the risk level is LOW exactly when the
detected indicator count is 0, MEDIUM for 1-3, HIGH for 4-7, CRITICAL for
8 or more, and the level is monotonically non-decreasing in the count. -/
theorem C9_bypass_risk_thresholds (s s₁ s₂ : String) :
    ((get_bypass_report s).risk_level = .LOW ↔
      (get_bypass_report s).pattern_count = 0) ∧
    ((get_bypass_report s).risk_level = .MEDIUM ↔
      1 ≤ (get_bypass_report s).pattern_count ∧
        (get_bypass_report s).pattern_count ≤ 3) ∧
    ((get_bypass_report s).risk_level = .HIGH ↔
      4 ≤ (get_bypass_report s).pattern_count ∧
        (get_bypass_report s).pattern_count ≤ 7) ∧
    ((get_bypass_report s).risk_level = .CRITICAL ↔
      8 ≤ (get_bypass_report s).pattern_count) ∧
    ((get_bypass_report s₁).pattern_count ≤ (get_bypass_report s₂).pattern_count →
      (get_bypass_report s₁).risk_level.rank ≤ (get_bypass_report s₂).risk_level.rank) := by
  have hs := calculate_risk_level_thresholds (detect_anti_cheat s)
  refine ⟨hs.1, hs.2.1, hs.2.2.1, hs.2.2.2, fun h => ?_⟩
  exact calculate_risk_level_mono _ _ h

/-- C9 witness: the threshold and monotonicity facts instantiated at
concrete scripts ("print(1)" has 0 indicators; "getfenv()" has 1). -/
theorem C9_bypass_risk_thresholds_witness :
    (get_bypass_report "print(1)").risk_level = .LOW ∧
    (get_bypass_report "getfenv()").risk_level.rank ≤
      (get_bypass_report "getfenv() setfenv() pcall() os.x()").risk_level.rank := by
  constructor
  · exact (C9_bypass_risk_thresholds "print(1)" "x" "y").1.mpr (by decide)
  · exact (C9_bypass_risk_thresholds "x" "getfenv()"
      "getfenv() setfenv() pcall() os.x()").2.2.2.2 (by decide)

/-! ## src/executor/anti_cheat_bypass.py — `validate_bypass` (lines 450-463) -/

/-- A Python whitespace character (`str.strip` / `\s`). -/
def isSpaceChar (c : Char) : Bool :=
  c == ' ' || c == '\t' || c == '\n' || c == '\r' || c == '\x0b' || c == '\x0c'

/-- Python `str.strip()`: drop leading and trailing whitespace. -/
def pyStrip (s : List Char) : List Char :=
  ((s.dropWhile isSpaceChar).reverse.dropWhile isSpaceChar).reverse

/-- All bypass patterns in the order `validate_bypass` scans them (the
flattening of the four category lists of `bypass_patterns`). -/
def all_bypass_pats : List String :=
  vm_detection_pats ++ execution_detection_pats ++
    memory_detection_pats ++ io_detection_pats

/-- `AntiCheatBypass.validate_bypass` (lines 450-463): return false if any
bypass pattern still matches the rewritten script (case-insensitively),
or if the stripped rewritten script is shorter than 10 characters;
otherwise true.  The `original_script` argument is never consulted. -/
def validate_bypass (original_script bypassed_script : String) : Bool :=
  if all_bypass_pats.any
      (fun p => occursIn p.toList (lowerChars bypassed_script.toList)) then
    false
  else if (pyStrip bypassed_script.toList).length < 10 then
    false
  else
    (fun _ => true) original_script

/-- The header marker emitted by `_add_safety_wrapper` (line 372). -/
def safetyWrapperMarker : String := "-- CIA Roblox Executor Safety Wrapper"

/-- C7 counterexample: `validate_bypass` accepts a rewritten script that is
strictly shorter than the original and contains neither the safety-wrapper
header marker nor a metadata block, so "returns true only if the rewritten
script is strictly longer ... and contains the expected header marker" is
false at this input. -/
theorem C7_counterexample :
    validate_bypass "this original script is quite long indeed padding"
        "print(123) hello" = true ∧
    ¬ ("this original script is quite long indeed padding".toList.length <
        "print(123) hello".toList.length) ∧
    occursIn safetyWrapperMarker.toList "print(123) hello".toList = false := by
  refine ⟨?_, ?_, ?_⟩ <;> decide

/-- C7 amended: `validate_bypass` returns true exactly when no pattern of
the bypass pattern table matches the rewritten script (case-insensitively)
and the whitespace-stripped rewritten script has at least 10 characters;
it never consults the original script, so it checks neither relative
length nor the header marker or metadata block. -/
theorem C7_validate_bypass_characterisation (original bypassed : String) :
    (validate_bypass original bypassed = true ↔
      ((∀ p ∈ all_bypass_pats,
          occursIn p.toList (lowerChars bypassed.toList) = false) ∧
        10 ≤ (pyStrip bypassed.toList).length)) ∧
    (∀ other : String, validate_bypass original bypassed =
      validate_bypass other bypassed) := by
  constructor
  · unfold validate_bypass
    split_ifs with h1 h2
    · simp only [false_iff, not_and]
      intro hall
      exfalso
      simp only [List.any_eq_true] at h1
      obtain ⟨p, hp, hocc⟩ := h1
      have hocc2 : occursIn p.toList (lowerChars bypassed.toList) = true := hocc
      rw [hall p hp] at hocc2
      exact Bool.false_ne_true hocc2
    · simp only [false_iff, not_and]
      intro _
      omega
    · simp only [true_iff]
      refine ⟨fun p hp => ?_, by omega⟩
      by_contra hne
      exact h1 (List.any_eq_true.mpr ⟨p, hp, by
        cases hocc : occursIn p.toList (lowerChars bypassed.toList) <;>
          simp_all⟩)
  · intro other
    unfold validate_bypass
    split_ifs <;> rfl

/-- C7 amended witness: the characterisation applied to a concrete rewrite
whose stripped length is 16 and which matches no bypass pattern. -/
theorem C7_validate_bypass_characterisation_witness :
    validate_bypass "orig" "print(123) hello" = true :=
  ((C7_validate_bypass_characterisation "orig" "print(123) hello").1).mpr
    (by constructor
        · decide
        · decide)

/-! ## A small matcher for the validator's regular expressions

`src/ai_module/validation.py` uses `re.search`/`re.findall` with patterns
built from literals, `\s+`, `\s*`, `\w+`, `\d+`, `\d{6,}` and fixed-width
hex-digit groups.  Each pattern is modelled as a token sequence matched by
maximal munch; for every pattern in the source, a character class is
always followed by a token its matches cannot start (a literal whose first
character is outside the class, or end of pattern), so maximal munch
agrees with Python's backtracking semantics.  All searches are
case-insensitive (`re.IGNORECASE`), so literals are stored lowercase and
input characters are lowercased at comparison time.
-/

/-- Python regex `\w` restricted to ASCII (scripts in the repository are
ASCII): letters, digits and underscore. -/
def isWordChar (c : Char) : Bool := c.isAlpha || c.isDigit || c == '_'

/-- Python regex `\d` (ASCII digits). -/
def isDigitChar (c : Char) : Bool := c.isDigit

/-- The class `[0-9a-fA-F]`. -/
def isHexChar (c : Char) : Bool :=
  c.isDigit || ('a' ≤ c && c ≤ 'f') || ('A' ≤ c && c ≤ 'F')

/-- One token of a validator regex (`idnt` is the identifier class
`[a-zA-Z_][a-zA-Z0-9_]*` used by the rewriter's I/O-blocking patterns). -/
inductive RTok
  | lit (cs : List Char)
  | spPlus
  | spStar
  | wdPlus
  | dgPlus
  | dgMin6
  | hex2
  | hex4
  | idnt
deriving DecidableEq

/-- Case-insensitive literal-match test: the lowercase pattern `pat`
starts the input once the input is lowercased. -/
def prefCI : List Char → List Char → Bool
  | [], _ => true
  | _ :: _, [] => false
  | c :: cs, d :: ds => c == d.toLower && prefCI cs ds

/-- Split off the maximal run of class characters: returns the run length
and the remainder. -/
def dropClass (f : Char → Bool) : List Char → Nat × List Char
  | [] => (0, [])
  | c :: cs =>
    if f c then
      let r := dropClass f cs
      (r.1 + 1, r.2)
    else (0, c :: cs)

/-- `matchLen ts s` : the number of characters of the start of `s` that the
token sequence `ts` consumes (maximal munch), or `none` if it does not
match at the start of `s`. -/
def matchLen : List RTok → List Char → Option Nat
  | [], _ => some 0
  | .lit pat :: ts, s =>
    if prefCI pat s then (matchLen ts (s.drop pat.length)).map (pat.length + ·)
    else none
  | .spPlus :: ts, s =>
    let r := dropClass isSpaceChar s
    if 1 ≤ r.1 then (matchLen ts r.2).map (r.1 + ·) else none
  | .spStar :: ts, s =>
    let r := dropClass isSpaceChar s
    (matchLen ts r.2).map (r.1 + ·)
  | .wdPlus :: ts, s =>
    let r := dropClass isWordChar s
    if 1 ≤ r.1 then (matchLen ts r.2).map (r.1 + ·) else none
  | .dgPlus :: ts, s =>
    let r := dropClass isDigitChar s
    if 1 ≤ r.1 then (matchLen ts r.2).map (r.1 + ·) else none
  | .dgMin6 :: ts, s =>
    let r := dropClass isDigitChar s
    if 6 ≤ r.1 then (matchLen ts r.2).map (r.1 + ·) else none
  | .hex2 :: ts, s =>
    match s with
    | a :: b :: r =>
      if isHexChar a && isHexChar b then (matchLen ts r).map (2 + ·) else none
    | _ => none
  | .hex4 :: ts, s =>
    match s with
    | a :: b :: c :: d :: r =>
      if isHexChar a && isHexChar b && isHexChar c && isHexChar d then
        (matchLen ts r).map (4 + ·)
      else none
    | _ => none
  | .idnt :: ts, s =>
    match s with
    | c :: cs =>
      if c.isAlpha || c == '_' then
        let r := dropClass isWordChar cs
        (matchLen ts r.2).map (1 + r.1 + ·)
      else none
    | [] => none

/-- `re.search`: the token sequence matches at some position of `s`. -/
def searchToks (ts : List RTok) : List Char → Bool
  | [] => (matchLen ts []).isSome
  | c :: cs => (matchLen ts (c :: cs)).isSome || searchToks ts cs

/-- First alternative of `alts` that matches at the start of `s`, returning
its consumed length (Python alternation tries branches left to right). -/
def firstAltLen (alts : List (List RTok)) (s : List Char) : Option Nat :=
  match alts with
  | [] => none
  | ts :: rest =>
    match matchLen ts s with
    | some n => some n
    | none => firstAltLen rest s

/-- Scanner behind `countToksAlts`; `skip` is the number of positions still
covered by the previous match. -/
def countToksSkip (alts : List (List RTok)) : Nat → List Char → Nat
  | _, [] => 0
  | k + 1, _ :: cs => countToksSkip alts k cs
  | 0, c :: cs =>
    match firstAltLen alts (c :: cs) with
    | some (l + 1) => 1 + countToksSkip alts l cs
    | _ => countToksSkip alts 0 cs

/-- `re.findall` match count for an alternation of token sequences
(non-overlapping, left to right; every alternative in the source consumes
at least one character). -/
def countToksAlts (alts : List (List RTok)) (s : List Char) : Nat :=
  countToksSkip alts 0 s

/-- Literal token from a string (stored lowercase in the pattern tables). -/
def litTok (s : String) : RTok := .lit s.toList

/-- Pattern of shape `LIT\s*\(` — the most common dangerous-pattern shape. -/
def litParen (s : String) : List RTok := [litTok s, .spStar, litTok "("]

/-! ## src/ai_module/validation.py — `ScriptValidator` pattern tables -/

/-- `dangerous_patterns["system_access"]` (validation.py lines 28-38). -/
def system_access_pats : List (List RTok) :=
  [litParen "os.execute", litParen "io.popen", litParen "io.open",
   litParen "io.close", litParen "io.read", litParen "io.write",
   litParen "os.remove", litParen "os.rename", litParen "os.tmpname"]

/-- `dangerous_patterns["code_execution"]` (lines 39-45). -/
def code_execution_pats : List (List RTok) :=
  [litParen "loadstring", litParen "loadfile", litParen "dofile",
   litParen "require", litParen "package.loadlib"]

/-- `dangerous_patterns["debug_access"]` (lines 46-53). -/
def debug_access_pats : List (List RTok) :=
  [litParen "debug.getinfo", litParen "debug.getlocal",
   litParen "debug.getupvalue", litParen "debug.setlocal",
   litParen "debug.setupvalue", litParen "debug.traceback"]

/-- `dangerous_patterns["memory_manipulation"]` (lines 54-60): four
`LIT\s*\(` patterns and the bare literal `jit\.`. -/
def memory_manipulation_pats : List (List RTok) :=
  [litParen "collectgarbage", litParen "coroutine.create",
   litParen "coroutine.resume", litParen "coroutine.yield",
   [litTok "jit."]]

/-- `dangerous_patterns["network_access"]` (lines 61-67). -/
def network_access_pats : List (List RTok) :=
  [litParen "http", litParen "https", litParen "request",
   litParen "fetch", litParen "webhook"]

/-- The validator's five dangerous-pattern categories in source order. -/
def dangerous_categories : List (String × List (List RTok)) :=
  [("system_access", system_access_pats),
   ("code_execution", code_execution_pats),
   ("debug_access", debug_access_pats),
   ("memory_manipulation", memory_manipulation_pats),
   ("network_access", network_access_pats)]

/-- `suspicious_patterns["infinite_loops"]` (lines 72-77). -/
def infinite_loops_pats : List (List RTok) :=
  [[litTok "while", .spPlus, litTok "true", .spPlus, litTok "do"],
   [litTok "for", .spPlus, .wdPlus, .spStar, litTok "=", .spStar, litTok "1",
    .spStar, litTok ",", .spStar, litTok "999999", .spPlus, litTok "do"],
   [litTok "repeat", .spPlus, litTok "until", .spPlus, litTok "false"],
   [litTok "while", .spPlus, litTok "1", .spStar, litTok "==", .spStar,
    litTok "1", .spPlus, litTok "do"]]

/-- `suspicious_patterns["excessive_iterations"]` (lines 78-81). -/
def excessive_iterations_pats : List (List RTok) :=
  [[litTok "for", .spPlus, .wdPlus, .spStar, litTok "=", .spStar, litTok "1",
    .spStar, litTok ",", .spStar, .dgMin6, .spPlus, litTok "do"],
   [litTok "for", .spPlus, .wdPlus, .spStar, litTok "=", .spStar, litTok "1",
    .spStar, litTok ",", .spStar, litTok "math.huge", .spPlus, litTok "do"]]

/-- `suspicious_patterns["suspicious_strings"]` (lines 82-91). -/
def suspicious_strings_pats : List (List RTok) :=
  [[litTok "exploit"], [litTok "hack"], [litTok "cheat"], [litTok "bypass"],
   [litTok "inject"], [litTok "malware"], [litTok "virus"], [litTok "backdoor"]]

/-- `suspicious_patterns["obfuscation"]` (lines 92-97): note the first
pattern requires `\d+` between the parentheses and the last two match
literal backslash escapes. -/
def obfuscation_pats : List (List RTok) :=
  [[litTok "string.char", .spStar, litTok "(", .spStar, .dgPlus, .spStar,
    litTok ")"],
   litParen "string.byte",
   [litTok "\\x", .hex2],
   [litTok "\\u", .hex4]]

/-- The validator's four suspicious-pattern categories in source order. -/
def suspicious_categories : List (String × List (List RTok)) :=
  [("infinite_loops", infinite_loops_pats),
   ("excessive_iterations", excessive_iterations_pats),
   ("suspicious_strings", suspicious_strings_pats),
   ("obfuscation", obfuscation_pats)]

/-! ## src/ai_module/validation.py — the four validation passes -/

/-- Closing delimiter for an opener (`delimiters` dict, line 266). -/
def closeOf (c : Char) : Char :=
  if c == '(' then ')' else if c == '[' then ']' else '}'

/-- Stack loop of `_check_balanced_delimiters` (lines 263-277). -/
def checkBalancedAux : List Char → List Char → Bool
  | stack, [] => stack.isEmpty
  | stack, c :: cs =>
    if c == '(' || c == '[' || c == '{' then checkBalancedAux (c :: stack) cs
    else if c == ')' || c == ']' || c == '}' then
      match stack with
      | [] => false
      | t :: rest => if closeOf t == c then checkBalancedAux rest cs else false
    else checkBalancedAux stack cs

/-- `ScriptValidator._check_balanced_delimiters` (lines 263-277). -/
def check_balanced_delimiters (s : List Char) : Bool := checkBalancedAux [] s

/-- `ScriptValidator._basic_validation` (lines 158-173): nonempty, stripped
length at least 10, raw length at most `max_script_length` = 50000,
balanced delimiters. -/
def basic_validation (s : List Char) : Bool :=
  if s.isEmpty || (pyStrip s).length < 10 then false
  else if 50000 < s.length then false
  else check_balanced_delimiters s

/-- True iff some pattern of the category list matches the script
(case-insensitive search). -/
def anyCatHit (cats : List (String × List (List RTok))) (s : List Char) : Bool :=
  cats.any (fun cp => cp.2.any (fun ts => searchToks ts s))

/-- Number of (category, pattern) pairs of the category list whose pattern
matches the script — the `suspicious_count` accumulation of
`_security_validation` (lines 191-196). -/
def matchedPairCount (cats : List (String × List (List RTok)))
    (s : List Char) : Nat :=
  (cats.map (fun cp => (cp.2.filter (fun ts => searchToks ts s)).length)).sum

/-- `ScriptValidator._security_validation` (lines 175-206): fail on any
dangerous-pattern hit, or on more than 5 suspicious-pattern hits.  (The
source lowercases the script and additionally passes `re.IGNORECASE`;
`searchToks` compares case-insensitively, which is equivalent.) -/
def security_validation (s : List Char) : Bool :=
  if anyCatHit dangerous_categories s then false
  else if 5 < matchedPairCount suspicious_categories s then false
  else true

/-- The findall pattern `function\s+\w+` used for function counts
(lines 223, 312, 471). -/
def functionCountAlts : List (List RTok) := [[litTok "function", .spPlus, .wdPlus]]

/-- The findall pattern `local\s+\w+` used for variable counts
(lines 229, 313). -/
def localCountAlts : List (List RTok) := [[litTok "local", .spPlus, .wdPlus]]

/-- `ScriptValidator._performance_validation` (lines 208-234): no
infinite-loop idiom, no excessive-iteration idiom, at most 50 functions,
at most 100 local variables. -/
def performance_validation (s : List Char) : Bool :=
  if infinite_loops_pats.any (fun ts => searchToks ts s) then false
  else if excessive_iterations_pats.any (fun ts => searchToks ts s) then false
  else if 50 < countToksAlts functionCountAlts s then false
  else if 100 < countToksAlts localCountAlts s then false
  else true

/-- Python `str.split('\n')`. -/
def splitNL : List Char → List (List Char)
  | [] => [[]]
  | c :: cs =>
    if c == '\n' then [] :: splitNL cs
    else
      match splitNL cs with
      | [] => [[c]]
      | l :: ls => (c :: l) :: ls

/-- The non-blank lines of a script (`line.strip()` truthiness test,
line 239). -/
def nonEmptyLines (s : List Char) : List (List Char) :=
  (splitNL s).filter (fun l => !(pyStrip l).isEmpty)

/-- The lines whose stripped form starts with `--` (line 240). -/
def commentLines (s : List Char) : List (List Char) :=
  (splitNL s).filter (fun l => prefOf "--".toList (pyStrip l))

/-- The non-blank, non-comment lines (line 241). -/
def codeLines (s : List Char) : List (List Char) :=
  (nonEmptyLines s).filter (fun l => !prefOf "--".toList (pyStrip l))

/-- `ScriptValidator._content_validation` (lines 236-261): at least 3 code
lines, comment ratio at most 0.8, no suspicious string.  The float
comparison `comment_ratio > 0.8` is modelled exactly as the rational
comparison `5 * comments > 4 * nonEmpty`; the two agree at every ratio a
line count can produce (a double holds these small integer ratios and the
comparison against 0.8 exactly as ordered rationals do). -/
def content_validation (s : List Char) : Bool :=
  if (codeLines s).length < 3 then false
  else if !(nonEmptyLines s).isEmpty &&
      4 * (nonEmptyLines s).length < 5 * (commentLines s).length then false
  else if suspicious_strings_pats.any (fun ts => searchToks ts s) then false
  else true

/-- `ScriptValidator.validate_script` (lines 121-156): the four passes in
order, short-circuiting on the first failure (the logging calls have no
effect on the result and the `except` branch is unreachable in this pure
model). -/
def validate_script (script_content : String) : Bool :=
  let s := script_content.toList
  if !basic_validation s then false
  else if !security_validation s then false
  else if !performance_validation s then false
  else if !content_validation s then false
  else true

/-- C3: `validate_script` rejects the exemplar dangerous script — its basic
checks pass but a system_access dangerous pattern matches, so the security
pass fails — and accepts the three-line clean script. -/
theorem C3_validate_script_exemplars :
    validate_script "os.execute(\"rm -rf /\")" = false ∧
    basic_validation "os.execute(\"rm -rf /\")".toList = true ∧
    system_access_pats.any
      (fun ts => searchToks ts "os.execute(\"rm -rf /\")".toList) = true ∧
    security_validation "os.execute(\"rm -rf /\")".toList = false ∧
    validate_script "local x = 1\nprint(x)\nprint(\"done\")" = true := by
  refine ⟨?_, ?_, ?_, ?_, ?_⟩ <;> decide

/-! ## src/ai_module/validation.py — `get_validation_report` (lines 279-364) -/

/-- The loop-count findall pattern `for\s+|while\s+|repeat\s+` (line 314). -/
def loopCountAlts : List (List RTok) :=
  [[litTok "for", .spPlus], [litTok "while", .spPlus], [litTok "repeat", .spPlus]]

/-- The fields of the report built by `get_validation_report` that the
claims depend on.  `issues` and `warnings` are string lists in the source;
they are modelled by their lengths (`dangerous_issue_count` is the length
of `security_issues`, and the final issue count adds the "Not enough
actual code lines" entry). -/
structure ValidationReport where
  script_length : Nat
  loop_count : Nat
  code_lines_count : Nat
  dangerous_issue_count : Nat
  suspicious_warning_count : Nat
  issue_count : Nat
  security_score : Nat
  validation_passed : Bool
deriving DecidableEq

/-- `ScriptValidator.get_validation_report` (lines 279-364): the score
starts at 0, loses 50 once if the dangerous-issue list is nonempty, 10
once if the suspicious-warning list is nonempty, 5 if the loop count
exceeds 10, 20 if there are fewer than 3 code lines, and is finally
clamped by `max(0, min(100, score + 100))`. -/
def get_validation_report (script_content : String) : ValidationReport :=
  let s := script_content.toList
  let stats_loops := countToksAlts loopCountAlts s
  let stats_code := (codeLines s).length
  let dCount := matchedPairCount dangerous_categories s
  let wCount := matchedPairCount suspicious_categories s
  let score1 : Int := if dCount ≠ 0 then 0 - 50 else 0
  let score2 : Int := if wCount ≠ 0 then score1 - 10 else score1
  let score3 : Int := if 10 < stats_loops then score2 - 5 else score2
  let score4 : Int := if stats_code < 3 then score3 - 20 else score3
  let issues := dCount + (if stats_code < 3 then 1 else 0)
  let final : Int := max 0 (min 100 (score4 + 100))
  { script_length := s.length
    loop_count := stats_loops
    code_lines_count := stats_code
    dangerous_issue_count := dCount
    suspicious_warning_count := wCount
    issue_count := issues
    security_score := final.toNat
    validation_passed := issues == 0 && decide (70 ≤ final.toNat) }

/-- The security score as claim C5 words it (spec section 3), for
comparison against the source computation: 100 minus 50 PER CATEGORY of
dangerous pattern found, minus 10 per category of suspicious pattern
found, minus 5 for a loop count over 10, minus 20 for fewer than 3 code
lines, clamped to [0, 100]. -/
def claimed_security_score (script_content : String) : Nat :=
  let s := script_content.toList
  let dCats := (dangerous_categories.filter
    (fun cp => cp.2.any (fun ts => searchToks ts s))).length
  let wCats := (suspicious_categories.filter
    (fun cp => cp.2.any (fun ts => searchToks ts s))).length
  (max 0 (min 100 ((100 : Int) - 50 * dCats - 10 * wCats
    - (if 10 < countToksAlts loopCountAlts s then 5 else 0)
    - (if (codeLines s).length < 3 then 20 else 0)))).toNat

/-- C5 counterexample: a script hitting two dangerous categories
(system_access and code_execution) scores 50 in the source — the 50-point
deduction is applied once if the dangerous-issue list is nonempty, not per
category — while the claimed per-category formula yields 0. -/
theorem C5_counterexample :
    (get_validation_report
      "os.execute(\"a\")\nloadstring(\"b\")\nprint(1)").security_score = 50 ∧
    claimed_security_score "os.execute(\"a\")\nloadstring(\"b\")\nprint(1)" = 0 ∧
    (get_validation_report
        "os.execute(\"a\")\nloadstring(\"b\")\nprint(1)").security_score ≠
      claimed_security_score "os.execute(\"a\")\nloadstring(\"b\")\nprint(1)" := by
  refine ⟨?_, ?_, ?_⟩ <;> decide

/-- A filtered list is nonempty exactly when some element satisfies the
predicate. -/
theorem filter_length_pos_iff {α : Type} (p : α → Bool) (l : List α) :
    0 < (l.filter p).length ↔ l.any p = true := by
  induction l with
  | nil => simp
  | cons a t ih => by_cases h : p a <;> simp [List.filter_cons, h, ih]

/-- `matchedPairCount` is positive exactly when some category has a hit. -/
theorem anyCatHit_iff_pos (cats : List (String × List (List RTok)))
    (s : List Char) :
    anyCatHit cats s = true ↔ 0 < matchedPairCount cats s := by
  induction cats with
  | nil => simp [anyCatHit, matchedPairCount]
  | cons cp rest ih =>
    unfold anyCatHit matchedPairCount at ih ⊢
    simp only [List.any_cons, Bool.or_eq_true, List.map_cons, List.sum_cons]
    rw [← filter_length_pos_iff, ih]
    omega

/-- C5 amended: the security score is 100 minus 50 when at least one
dangerous pattern is found (a single deduction however many categories
hit), minus 10 when at least one suspicious pattern is found, minus 5 when
the loop count exceeds 10, minus 20 when there are fewer than 3 code
lines, clamped to [0, 100]. -/
theorem C5_security_score_formula (script_content : String) :
    (get_validation_report script_content).security_score =
      (max 0 (min 100 ((100 : Int)
        - (if anyCatHit dangerous_categories script_content.toList then 50 else 0)
        - (if anyCatHit suspicious_categories script_content.toList then 10 else 0)
        - (if 10 < countToksAlts loopCountAlts script_content.toList then 5 else 0)
        - (if (codeLines script_content.toList).length < 3 then 20
           else 0)))).toNat := by
  have hd : (anyCatHit dangerous_categories script_content.toList = true) =
      (0 < matchedPairCount dangerous_categories script_content.toList) :=
    propext (anyCatHit_iff_pos _ _)
  have hw : (anyCatHit suspicious_categories script_content.toList = true) =
      (0 < matchedPairCount suspicious_categories script_content.toList) :=
    propext (anyCatHit_iff_pos _ _)
  simp only [get_validation_report, hd, hw]
  split_ifs <;> omega

/-! ## src/executor/core.py — `ExecutorCore` execution statistics -/

/-- The dangerous substrings of `ExecutorCore._validate_script`
(core.py lines 196-208), checked with Python `in` on the lowercased
script. -/
def core_dangerous_substrings : List String :=
  ["os.execute", "io.popen", "loadstring", "dofile", "loadfile", "require",
   "package", "debug", "collectgarbage", "coroutine", "jit"]

/-- `ExecutorCore._validate_script` (lines 193-220): false iff a dangerous
substring occurs (the loop-count check on line 217 only logs a warning). -/
def core_validate_script (s : List Char) : Bool :=
  !(core_dangerous_substrings.any (fun p => occursIn p.toList (lowerChars s)))

/-- `ExecutorCore.execution_stats` (lines 46-51).  `total_execution_time`
is a float of elapsed seconds in the source; elapsed time enters the model
as an abstract `Nat` parameter, which the claim does not constrain. -/
structure ExecutionStats where
  total_executions : Nat
  successful_executions : Nat
  failed_executions : Nat
  total_execution_time : Nat
deriving DecidableEq

/-- The statistics dict installed by `__init__` (lines 46-51). -/
def initStats : ExecutionStats :=
  { total_executions := 0, successful_executions := 0,
    failed_executions := 0, total_execution_time := 0 }

/-- `ExecutorCore.clear_execution_stats` (lines 285-292). -/
def clear_execution_stats (_ : ExecutionStats) : ExecutionStats := initStats

/-- What the execution step inside `execute_script` does on one call: the
sandboxed/direct `_execute_with_timeout` either returns a value or raises
(timeouts raise `ExecutionError`, lines 271-274, so they are a `raises`
outcome here). -/
inductive RunOutcome
  | returns (value : String)
  | raises (msg : String)

/-- `ExecutorCore.execute_script` (lines 128-191) as a state transformer
on the statistics.  If the runtime is not initialized it raises before
touching the stats; otherwise `total_executions` is incremented first,
then either `successful_executions` (and the elapsed time) or
`failed_executions` is incremented depending on whether the body raised
(validation failure raises `ValueError`, line 150; both sandbox modes
raise through the same `except`, lines 181-191). -/
def execute_script (runtimeInitialized : Bool) (stats : ExecutionStats)
    (script_content : String) (outcome : RunOutcome) (elapsed : Nat) :
    Except String String × ExecutionStats :=
  if !runtimeInitialized then
    (.error "Lua runtime not initialized", stats)
  else
    let stats1 := { stats with total_executions := stats.total_executions + 1 }
    if !core_validate_script script_content.toList then
      (.error "Script execution failed: Script validation failed",
       { stats1 with failed_executions := stats1.failed_executions + 1 })
    else
      match outcome with
      | .returns v =>
        (.ok ("Execution successful. Result: " ++ v),
         { stats1 with
            successful_executions := stats1.successful_executions + 1,
            total_execution_time := stats1.total_execution_time + elapsed })
      | .raises m =>
        (.error ("Script execution failed: " ++ m),
         { stats1 with failed_executions := stats1.failed_executions + 1 })

/-- The claimed statistics invariant. -/
def statsInvariant (st : ExecutionStats) : Prop :=
  st.total_executions = st.successful_executions + st.failed_executions

/-- C10: total_executions = successful_executions + failed_executions
holds at construction, after clear_execution_stats, and is preserved by
every call of execute_script, whether it returns normally or raises. -/
theorem C10_execution_stats_invariant (st : ExecutionStats) (rt : Bool)
    (script : String) (oc : RunOutcome) (t : Nat)
    (h : statsInvariant st) :
    statsInvariant initStats ∧
    statsInvariant (clear_execution_stats st) ∧
    statsInvariant (execute_script rt st script oc t).2 := by
  refine ⟨rfl, rfl, ?_⟩
  unfold statsInvariant at h ⊢
  unfold execute_script
  split_ifs with h1 h2
  · simpa using h
  · simp only []
    omega
  · cases oc <;> simp only [] <;> omega

/-- C10 witness: the invariant transported through a concrete failing call
starting from concrete statistics. -/
theorem C10_execution_stats_invariant_witness :
    statsInvariant (execute_script true
      { total_executions := 2, successful_executions := 1,
        failed_executions := 1, total_execution_time := 7 }
      "print(1)" (.raises "boom") 3).2 :=
  (C10_execution_stats_invariant
    { total_executions := 2, successful_executions := 1,
      failed_executions := 1, total_execution_time := 7 }
    true "print(1)" (.raises "boom") 3 rfl).2.2

/-! ## src/executor/sandbox.py — `Sandbox.execute` (lines 373-439)

Key modelled fact: `_execute_with_timeout` runs on a separate daemon
thread (lines 400-405); the exception it re-raises (line 454) terminates
that worker thread and is reported by Python's default thread excepthook —
it never crosses the thread boundary into the `try` of `execute`, whose
`except` (line 430) can only catch exceptions raised on the calling
thread.  So when the script raises and the worker finishes before the
timeout, `execution_thread.is_alive()` is false and the success branch
(lines 423-428) returns `success=True` with no error.
-/

/-- What one run of `lua_runtime.execute(script)` on the worker thread
does: finish normally, raise, or still be running at the join deadline.
`printed` is the output captured in `output_buffer` by `_safe_print`. -/
inductive LuaOutcome
  | completes (printed : List String)
  | raises (msg : String) (printed : List String)
  | hangs (printed : List String)

/-- The `SandboxResult` named tuple (sandbox.py lines 23-29);
`memory_usage` and `execution_time` are process-clock measurements and are
not modelled. -/
structure SandboxResult where
  success : Bool
  output : String
  error : Option String
deriving DecidableEq

/-- `Sandbox.execute` (lines 373-439) as a function of the worker-thread
outcome.  The size guard compares against `max_output_size` = 1048576
(line 388).  A raising script yields the success branch — see the section
comment. -/
def sandbox_execute (runtimeAvailable : Bool) (script_content : String)
    (outcome : LuaOutcome) : SandboxResult :=
  if !runtimeAvailable then
    { success := false, output := "", error := some "Lua runtime not available" }
  else if 1024 * 1024 < script_content.toList.length then
    { success := false, output := "", error := some "Script too large" }
  else
    match outcome with
    | .hangs printed =>
      { success := false, output := String.intercalate "\n" printed,
        error := some "Execution timeout" }
    | .raises _ printed =>
      { success := true, output := String.intercalate "\n" printed, error := none }
    | .completes printed =>
      { success := true, output := String.intercalate "\n" printed, error := none }

/-- C2 divergence, in general: for every script within the size bound
whose execution raises on the worker thread, `Sandbox.execute` reports
`success = true` with no error — the raised error is lost at the thread
boundary, contradicting the claim that `success` is false and `error`
carries the raised error. -/
theorem C2_raised_errors_lost (script : String) (msg : String)
    (printed : List String)
    (hsize : script.toList.length ≤ 1024 * 1024) :
    (sandbox_execute true script (.raises msg printed)).success = true ∧
    (sandbox_execute true script (.raises msg printed)).error = none := by
  unfold sandbox_execute
  split_ifs with h1 h2
  · simp at h1
  · omega
  · exact ⟨rfl, rfl⟩

/-- C2 witness: the divergence evaluated at the concrete failing input
`error("boom")`. -/
theorem C2_raised_errors_lost_witness :
    (sandbox_execute true "error(\"boom\")" (.raises "boom" [])).success = true ∧
    (sandbox_execute true "error(\"boom\")" (.raises "boom" [])).error = none :=
  C2_raised_errors_lost "error(\"boom\")" "boom" [] (by decide)

/-! ## src/utils/file_manager.py — script save/load with metadata header

`save_generated_script` writes `header + "\n\n" + content` when metadata
is given (lines 67-76); `load_script` parses the header back with
`_extract_metadata` (lines 414-440) and strips it with
`_remove_metadata_header` (lines 442-458).  The file system is the
identity bridge between the two (write then read returns the written
text), so both are modelled directly on the file content.  Metadata
values are modelled as raw strings: the source tries `json.loads` on each
value and keeps the raw string when that raises, which it does for plain
words such as "test".
-/

/-- Python `'\n'.join`. -/
def joinNL : List (List Char) → List Char
  | [] => []
  | [l] => l
  | l :: ls => l ++ '\n' :: joinNL ls

/-- Python `line.split(": ", 1)` when it yields two parts (split at the
first occurrence); `none` when `": "` does not occur (the source skips
such lines). -/
def splitColonSpace : List Char → Option (List Char × List Char)
  | [] => none
  | c :: cs =>
    if prefOf ": ".toList (c :: cs) then some ([], cs.drop 1)
    else
      match splitColonSpace cs with
      | some kv => some (c :: kv.1, kv.2)
      | none => none

/-- The loop of `_extract_metadata` (lines 421-438): `inMeta` is the
`in_metadata` flag; parsing stops at the first `-- End Metadata` line;
`-- `-prefixed lines inside the header become key/value pairs (the
`json.loads` attempt keeps the raw string for non-JSON values, which is
how it is modelled). -/
def extractMetaGo (inMeta : Bool) : List (List Char) → List (List Char × List Char)
  | [] => []
  | l :: ls =>
    if pyStrip l == "-- CIA Roblox Executor - Script Metadata".toList then
      extractMetaGo true ls
    else if pyStrip l == "-- End Metadata".toList then []
    else if inMeta && prefOf "-- ".toList (pyStrip l) then
      match splitColonSpace ((pyStrip l).drop 3) with
      | some kv => kv :: extractMetaGo inMeta ls
      | none => extractMetaGo inMeta ls
    else extractMetaGo inMeta ls

/-- `FileManager._extract_metadata` (lines 414-440), as the ordered list of
parsed key/value pairs (the source stores them in a dict, where a later
binding of the same key overwrites an earlier one — `metaLookup` below
reads the model accordingly). -/
def extract_metadata (content : List Char) : List (List Char × List Char) :=
  extractMetaGo false (splitNL content)

/-- Lookup in the association-list model of the metadata dict: the last
binding of a key wins, as in a Python dict built by repeated assignment. -/
def metaLookup (m : List (List Char × List Char)) (k : List Char) :
    Option (List Char) :=
  match m with
  | [] => none
  | kv :: rest =>
    match metaLookup rest k with
    | some v => some v
    | none => if kv.1 == k then some kv.2 else none

/-- The scan of `_remove_metadata_header` (lines 448-456): walk the lines;
when the first `-- End Metadata` line is found, return the lines after it
provided a start-sentinel line was seen before it (`start_idx != -1`),
else `none` (the loop breaks at the first end line, so later sentinels
are never inspected). -/
def findHeaderEnd (seenStart : Bool) : List (List Char) → Option (List (List Char))
  | [] => none
  | l :: ls =>
    if pyStrip l == "-- End Metadata".toList then
      if seenStart then some ls else none
    else
      findHeaderEnd
        (seenStart || pyStrip l == "-- CIA Roblox Executor - Script Metadata".toList)
        ls

/-- `FileManager._remove_metadata_header` (lines 442-458): when both
sentinels are found, join the lines after the end sentinel; else return
the content unchanged. -/
def remove_metadata_header (content : List Char) : List Char :=
  match findHeaderEnd false (splitNL content) with
  | some rest => joinNL rest
  | none => content

/-- `FileManager._create_metadata_header` (lines 396-412): the fixed
banner lines (with the generation timestamp `ts` and the class name),
one `-- key: value` line per metadata entry, and the end sentinel. -/
def create_metadata_header (ts : List Char)
    (metadata : List (List Char × List Char)) : List Char :=
  joinNL (["-- CIA Roblox Executor - Script Metadata".toList,
           "-- Generated: ".toList ++ ts,
           "-- File Manager: FileManager".toList,
           "--".toList]
    ++ metadata.map (fun kv => "-- ".toList ++ kv.1 ++ ": ".toList ++ kv.2)
    ++ ["-- End Metadata".toList])

/-- `FileManager.save_generated_script` (lines 46-95), as the file content
it writes: `header + "\n\n" + content` when metadata is given, else the
bare content.  (The `.lua` filename handling and the write itself do not
affect the content.) -/
def save_generated_script (ts : List Char)
    (metadata : List (List Char × List Char)) (script_content : List Char) :
    List Char :=
  if metadata.isEmpty then script_content
  else create_metadata_header ts metadata ++ "\n\n".toList ++ script_content

/-- `FileManager.load_script` (lines 97-136), as a function of the file
content: extract the metadata, and strip the header exactly when the
extracted metadata is nonempty (`if metadata:`). -/
def load_script (content : List Char) : List Char × List (List Char × List Char) :=
  let metadata := extract_metadata content
  if metadata.isEmpty then (content, metadata)
  else (remove_metadata_header content, metadata)

/-- `splitNL` never returns the empty list (Python `split` always yields
at least one piece). -/
theorem splitNL_ne_nil (s : List Char) : splitNL s ≠ [] := by
  cases s with
  | nil => simp [splitNL]
  | cons c cs =>
    unfold splitNL
    split_ifs
    · simp
    · rcases h : splitNL cs with _ | ⟨l, ls⟩ <;> simp

/-- Joining the split lines restores the original text. -/
theorem joinNL_splitNL (s : List Char) : joinNL (splitNL s) = s := by
  induction s with
  | nil => rfl
  | cons c cs ih =>
    unfold splitNL
    split_ifs with h
    · rcases hs : splitNL cs with _ | ⟨l, ls⟩
      · exact absurd hs (splitNL_ne_nil cs)
      · rw [hs] at ih
        have hc : c = '\n' := by simpa using h
        subst hc
        show joinNL ([] :: l :: ls) = '\n' :: cs
        show [] ++ '\n' :: joinNL (l :: ls) = '\n' :: cs
        simp [ih]
    · rcases hs : splitNL cs with _ | ⟨l, ls⟩
      · exact absurd hs (splitNL_ne_nil cs)
      · rw [hs] at ih
        cases ls with
        | nil => show c :: l = c :: cs; simpa using ih
        | cons m ms =>
          show (c :: l) ++ '\n' :: joinNL (m :: ms) = c :: cs
          simpa using ih

/-- Joining after an initial blank line prepends exactly one newline. -/
theorem joinNL_blank_cons (s : List Char) :
    joinNL ([] :: splitNL s) = '\n' :: s := by
  rcases hs : splitNL s with _ | ⟨l, ls⟩
  · exact absurd hs (splitNL_ne_nil s)
  · show [] ++ '\n' :: joinNL (l :: ls) = '\n' :: s
    have := joinNL_splitNL s
    rw [hs] at this
    simp [this]

/-- C4 counterexample: saving the body `print(1)` with metadata
`{description: "test"}` and reloading does NOT return the original body —
the blank separator line after the header is kept, so the loaded body is
`"\nprint(1)"`. -/
theorem C4_counterexample :
    (load_script (save_generated_script "2025-06-01T00:00:00".toList
        [("description".toList, "test".toList)] "print(1)".toList)).1 ≠
      "print(1)".toList ∧
    (load_script (save_generated_script "2025-06-01T00:00:00".toList
        [("description".toList, "test".toList)] "print(1)".toList)).1 =
      "\nprint(1)".toList := by
  refine ⟨?_, ?_⟩ <;> decide

/-- C4 amended: for every script body B, saving it with the exemplar
metadata map `{description: "test"}` and reloading yields the body with
one extra leading newline (`"\n" ++ B` — the blank separator line is kept
by `_remove_metadata_header`), together with a metadata map that contains
`description: "test"` (plus the header's own `Generated` and
`File Manager` entries). -/
theorem C4_save_load_round_trip (B : List Char) :
    load_script (save_generated_script "2025-06-01T00:00:00".toList
        [("description".toList, "test".toList)] B) =
      ('\n' :: B,
       [("Generated".toList, "2025-06-01T00:00:00".toList),
        ("File Manager".toList, "FileManager".toList),
        ("description".toList, "test".toList)]) ∧
    metaLookup (load_script (save_generated_script "2025-06-01T00:00:00".toList
        [("description".toList, "test".toList)] B)).2 "description".toList =
      some "test".toList := by
  constructor
  · show (remove_metadata_header _, _) = _
    have hr : remove_metadata_header (save_generated_script
        "2025-06-01T00:00:00".toList
        [("description".toList, "test".toList)] B) =
        joinNL ([] :: splitNL B) := rfl
    rw [hr, joinNL_blank_cons]
    rfl
  · rfl

/-! ## src/backend/crypto_utils.py — authenticated string encryption

`encrypt_string`/`decrypt_string` (crypto_utils.py lines 44-57) use the
external PyCryptodome AES-GCM cipher with the persisted 256-bit key and a
random 16-byte nonce, and base64 for transport.  Text is modelled as its
UTF-8 byte sequence (a `List Nat` of values < 256): Python's
`.encode()`/`.decode()` bridge is the identity on this representation.
The external cipher is modelled by two abstract parameters: a keystream
derivation (GCM encrypts in counter mode, XORing plaintext bytes with a
keystream determined by key and nonce) and an authentication-tag
derivation (a deterministic 16-byte function of key, nonce and
ciphertext, which `decrypt_and_verify` recomputes and compares).  The
round-trip theorem holds for every choice of these parameters — in
particular for the real AES-based ones.
-/

/-- The base64 alphabet (RFC 4648, as used by Python `base64.b64encode`). -/
def b64Char (n : Nat) : Char :=
  if n < 26 then Char.ofNat (65 + n)
  else if n < 52 then Char.ofNat (97 + (n - 26))
  else if n < 62 then Char.ofNat (48 + (n - 52))
  else if n = 62 then '+'
  else '/'

/-- `base64.b64encode` on a byte list: 3 bytes → 4 characters, with `=`
padding for a 1- or 2-byte tail. -/
def b64encode : List Nat → List Char
  | [] => []
  | [a] => [b64Char (a / 4), b64Char (a % 4 * 16), '=', '=']
  | [a, b] => [b64Char (a / 4), b64Char (a % 4 * 16 + b / 16),
               b64Char (b % 16 * 4), '=']
  | a :: b :: c :: rest =>
    b64Char (a / 4) :: b64Char (a % 4 * 16 + b / 16) ::
    b64Char (b % 16 * 4 + c / 64) :: b64Char (c % 64) :: b64encode rest

/-- The value of a base64 alphabet character (`none` for other
characters). -/
def b64Val (c : Char) : Option Nat :=
  if 65 ≤ c.toNat ∧ c.toNat ≤ 90 then some (c.toNat - 65)
  else if 97 ≤ c.toNat ∧ c.toNat ≤ 122 then some (c.toNat - 97 + 26)
  else if 48 ≤ c.toNat ∧ c.toNat ≤ 57 then some (c.toNat - 48 + 52)
  else if c.toNat = 43 then some 62
  else if c.toNat = 47 then some 63
  else none

/-- `base64.b64decode` on the outputs `b64encode` produces: 4 characters →
3 bytes, with `=` padding closing the stream (Python raises on malformed
input, modelled as `none`). -/
def b64decode : List Char → Option (List Nat)
  | [] => some []
  | c1 :: c2 :: c3 :: c4 :: rest =>
    match b64Val c1, b64Val c2 with
    | some s1, some s2 =>
      if c3 = '=' then
        if c4 = '=' ∧ rest = [] then some [s1 * 4 + s2 / 16] else none
      else
        match b64Val c3 with
        | some s3 =>
          if c4 = '=' then
            if rest = [] then some [s1 * 4 + s2 / 16, s2 % 16 * 16 + s3 / 4]
            else none
          else
            match b64Val c4 with
            | some s4 =>
              (b64decode rest).map
                (fun tl => (s1 * 4 + s2 / 16) :: (s2 % 16 * 16 + s3 / 4) ::
                  (s3 % 4 * 64 + s4) :: tl)
            | none => none
        | none => none
    | _, _ => none
  | _ => none

/-- Decoding inverts the alphabet map on all 64 values. -/
theorem b64Val_b64Char : ∀ x, x < 64 → b64Val (b64Char x) = some x := by
  decide

/-- No alphabet character is the padding character. -/
theorem b64Char_ne_pad : ∀ x, x < 64 → b64Char x ≠ '=' := by
  decide

/-- Base64 round-trip: decoding an encoded byte list (all values < 256)
returns the original bytes. -/
theorem b64decode_encode : ∀ (bs : List Nat), (∀ b ∈ bs, b < 256) →
    b64decode (b64encode bs) = some bs
  | [], _ => rfl
  | [a], h => by
    have ha : a < 256 := h a (by simp)
    have h1 := b64Val_b64Char (a / 4) (by omega)
    have h2 := b64Val_b64Char (a % 4 * 16) (by omega)
    show b64decode [b64Char (a / 4), b64Char (a % 4 * 16), '=', '='] = some [a]
    simp [b64decode, h1, h2]
    omega
  | [a, b], h => by
    have ha : a < 256 := h a (by simp)
    have hb : b < 256 := h b (by simp)
    have h1 := b64Val_b64Char (a / 4) (by omega)
    have h2 := b64Val_b64Char (a % 4 * 16 + b / 16) (by omega)
    have h3 := b64Val_b64Char (b % 16 * 4) (by omega)
    have hne := b64Char_ne_pad (a % 4 * 16 + b / 16) (by omega)
    show b64decode [b64Char (a / 4), b64Char (a % 4 * 16 + b / 16),
      b64Char (b % 16 * 4), '='] = some [a, b]
    simp [b64decode, h1, h2, h3, b64Char_ne_pad (b % 16 * 4) (by omega)]
    omega
  | a :: b :: c :: rest, h => by
    have ha : a < 256 := h a (by simp)
    have hb : b < 256 := h b (by simp)
    have hc : c < 256 := h c (by simp)
    have ih := b64decode_encode rest (fun x hx => h x (by simp [hx]))
    have h1 := b64Val_b64Char (a / 4) (by omega)
    have h2 := b64Val_b64Char (a % 4 * 16 + b / 16) (by omega)
    have h3 := b64Val_b64Char (b % 16 * 4 + c / 64) (by omega)
    have h4 := b64Val_b64Char (c % 64) (by omega)
    have hne3 := b64Char_ne_pad (b % 16 * 4 + c / 64) (by omega)
    have hne4 := b64Char_ne_pad (c % 64) (by omega)
    show b64decode (b64Char (a / 4) :: b64Char (a % 4 * 16 + b / 16) ::
      b64Char (b % 16 * 4 + c / 64) :: b64Char (c % 64) ::
      b64encode rest) = some (a :: b :: c :: rest)
    simp [b64decode, h1, h2, h3, h4, hne3, hne4, ih]
    refine ⟨?_, ?_, ?_⟩ <;> omega

/-- Counter-mode XOR of a byte list against a keystream `f`, starting at
stream position `i` (each keystream value is reduced to a byte). -/
def xorKs (f : Nat → Nat) : Nat → List Nat → List Nat
  | _, [] => []
  | i, p :: ps => (p ^^^ f i % 256) :: xorKs f (i + 1) ps

/-- XORing against the same keystream twice is the identity. -/
theorem xorKs_xorKs (f : Nat → Nat) : ∀ (i : Nat) (ps : List Nat),
    xorKs f i (xorKs f i ps) = ps
  | _, [] => rfl
  | i, p :: ps => by
    show (p ^^^ f i % 256 ^^^ f i % 256) :: xorKs f (i + 1) (xorKs f (i + 1) ps)
      = p :: ps
    rw [Nat.xor_cancel_right, xorKs_xorKs f (i + 1) ps]

/-- XORing byte values with keystream bytes yields byte values. -/
theorem xorKs_lt (f : Nat → Nat) : ∀ (i : Nat) (ps : List Nat),
    (∀ p ∈ ps, p < 256) → ∀ b ∈ xorKs f i ps, b < 256
  | _, [], _ => by simp [xorKs]
  | i, p :: ps, h => by
    intro b hb
    have e : (2 : Nat) ^ 8 = 256 := by norm_num
    rcases List.mem_cons.mp hb with hb | hb
    · rw [hb, ← e]
      refine Nat.xor_lt_two_pow ?_ ?_
      · rw [e]; exact h p (List.mem_cons_self p ps)
      · rw [e]; exact Nat.mod_lt _ (by norm_num)
    · exact xorKs_lt f (i + 1) ps (fun q hq => h q (List.mem_cons_of_mem p hq)) b hb

/-- The abstract interface of the external AES-GCM cipher: a keystream
derivation (key → nonce → stream index → keystream value) and an
authentication-tag derivation (key → nonce → ciphertext → tag byte
index → tag value). -/
structure GCM where
  ks : List Nat → List Nat → Nat → Nat
  tagF : List Nat → List Nat → List Nat → Nat → Nat

/-- The 16-byte authentication tag (PyCryptodome's GCM default length). -/
def gcmTag (tagF : List Nat → List Nat → List Nat → Nat → Nat)
    (key nonce ct : List Nat) : List Nat :=
  (List.range 16).map (fun i => tagF key nonce ct i % 256)

theorem gcmTag_length (tagF : List Nat → List Nat → List Nat → Nat → Nat)
    (key nonce ct : List Nat) : (gcmTag tagF key nonce ct).length = 16 := by
  simp [gcmTag]

theorem gcmTag_lt (tagF : List Nat → List Nat → List Nat → Nat → Nat)
    (key nonce ct : List Nat) : ∀ b ∈ gcmTag tagF key nonce ct, b < 256 := by
  intro b hb
  simp [gcmTag] at hb
  obtain ⟨i, _, hi⟩ := hb
  rw [← hi]
  exact Nat.mod_lt _ (by norm_num)

/-- `cipher.encrypt_and_digest(plaintext)` of the external library:
counter-mode encryption plus the 16-byte tag over the ciphertext. -/
def encrypt_and_digest (gm : GCM) (key nonce pt : List Nat) :
    List Nat × List Nat :=
  let ct := xorKs (fun i => gm.ks key nonce i) 0 pt
  (ct, gcmTag gm.tagF key nonce ct)

/-- `cipher.decrypt_and_verify(ciphertext, tag)` of the external library:
recompute the tag over the ciphertext and compare; on mismatch the
library raises (modelled as `none`), otherwise decrypt (counter mode is
its own inverse). -/
def decrypt_and_verify (gm : GCM) (key nonce ct tag : List Nat) :
    Option (List Nat) :=
  if tag = gcmTag gm.tagF key nonce ct then
    some (xorKs (fun i => gm.ks key nonce i) 0 ct)
  else none

/-- `encrypt_string` (crypto_utils.py lines 44-48): encrypt the text bytes
under the persisted key with a fresh 16-byte nonce and return
`base64(nonce ++ tag ++ ciphertext)`. -/
def encrypt_string (gm : GCM) (key nonce text : List Nat) : List Char :=
  let r := encrypt_and_digest gm key nonce text
  b64encode (nonce ++ r.2 ++ r.1)

/-- `decrypt_string` (crypto_utils.py lines 50-57): base64-decode, split
the first 16 bytes as the nonce and the next 16 as the tag, verify and
decrypt the remainder. -/
def decrypt_string (gm : GCM) (key : List Nat) (token : List Char) :
    Option (List Nat) :=
  (b64decode token).bind (fun data =>
    decrypt_and_verify gm key (data.take 16) (data.drop 32)
      ((data.drop 16).take 16))

/-- Splitting and verifying the encoded blob recovers the plaintext. -/
theorem decrypt_string_core (gm : GCM) (key nonce tg ct S : List Nat)
    (hnl : nonce.length = 16) (htgl : tg.length = 16)
    (hall : ∀ b ∈ nonce ++ tg ++ ct, b < 256)
    (htg : tg = gcmTag gm.tagF key nonce ct)
    (hS : xorKs (fun i => gm.ks key nonce i) 0 ct = S) :
    (b64decode (b64encode (nonce ++ tg ++ ct))).bind (fun data =>
      decrypt_and_verify gm key (data.take 16) (data.drop 32)
        ((data.drop 16).take 16)) = some S := by
  rw [b64decode_encode _ hall]
  have h1 : (nonce ++ tg ++ ct).take 16 = nonce := by
    rw [List.append_assoc]
    exact List.take_left' hnl
  have h2 : ((nonce ++ tg ++ ct).drop 16).take 16 = tg := by
    rw [List.append_assoc, List.drop_left' hnl]
    exact List.take_left' htgl
  have h3 : (nonce ++ tg ++ ct).drop 32 = ct := by
    have h4 : ((nonce ++ tg ++ ct).drop 16).drop 16 = ct := by
      rw [List.append_assoc, List.drop_left' hnl]
      exact List.drop_left' htgl
    rw [List.drop_drop] at h4
    exact h4
  show decrypt_and_verify gm key ((nonce ++ tg ++ ct).take 16)
    ((nonce ++ tg ++ ct).drop 32) (((nonce ++ tg ++ ct).drop 16).take 16) = some S
  rw [h1, h2, h3]
  unfold decrypt_and_verify
  rw [if_pos htg, hS]

/-- C1: for every text (as its UTF-8 bytes), every key, every 16-byte
nonce and every choice of the abstract cipher parameters,
`decrypt_string (encrypt_string S)` returns `S`: the nonce/tag/ciphertext
fields are split exactly as written, the recomputed tag verifies, and
counter-mode decryption restores the plaintext. -/
theorem C1_decrypt_encrypt_round_trip (gm : GCM) (key nonce S : List Nat)
    (hnl : nonce.length = 16) (hnb : ∀ b ∈ nonce, b < 256)
    (hSb : ∀ b ∈ S, b < 256) :
    decrypt_string gm key (encrypt_string gm key nonce S) = some S := by
  have hctb := xorKs_lt (fun i => gm.ks key nonce i) 0 S hSb
  have hall : ∀ b ∈ nonce ++ gcmTag gm.tagF key nonce
      (xorKs (fun i => gm.ks key nonce i) 0 S) ++
      xorKs (fun i => gm.ks key nonce i) 0 S, b < 256 := by
    intro b hb
    rcases List.mem_append.mp hb with hb | hb
    · rcases List.mem_append.mp hb with hb | hb
      · exact hnb b hb
      · exact gcmTag_lt _ _ _ _ b hb
    · exact hctb b hb
  exact decrypt_string_core gm key nonce
    (gcmTag gm.tagF key nonce (xorKs (fun i => gm.ks key nonce i) 0 S))
    (xorKs (fun i => gm.ks key nonce i) 0 S) S hnl
    (gcmTag_length _ _ _ _) hall rfl (xorKs_xorKs _ 0 S)

/-- C1 witness: the round trip evaluated with a concrete cipher model, a
concrete key, the nonce 0..15 and the plaintext bytes of "hi". -/
theorem C1_decrypt_encrypt_round_trip_witness :
    decrypt_string ⟨fun _ _ i => i * 37 + 5, fun _ _ ct i => ct.sum + i⟩
      (List.range 32)
      (encrypt_string ⟨fun _ _ i => i * 37 + 5, fun _ _ ct i => ct.sum + i⟩
        (List.range 32) (List.range 16) [104, 105]) = some [104, 105] :=
  C1_decrypt_encrypt_round_trip ⟨fun _ _ i => i * 37 + 5, fun _ _ ct i => ct.sum + i⟩
    (List.range 32) (List.range 16) [104, 105]
    (by decide) (by decide) (by decide)

/-! ## src/executor/anti_cheat_bypass.py — `apply_bypass` (lines 66-110)

The rewriting pipeline: word-boundary replacement of detected calls by
safe stand-ins with a prepended definitions header per category, outright
blocking of I/O-looking calls, optional obfuscation (random local-variable
renaming plus up to three random comment lines inserted when the script
has more than 10 lines), and a protected-call safety wrapper carrying a
timestamp and content hash.  Randomness (`random.choices`/`randint`) is
an explicit `ObfsRng` parameter; the timestamp and hash digest are
explicit parameters of the wrapper.  The `except` fallback (line 92) is
unreachable in this pure model.
-/

/-- `wordCharAfter n s`: the character at offset `n` exists and is a word
character (the trailing `\b` of a replacement pattern fails there). -/
def wordCharAfter (n : Nat) (s : List Char) : Bool :=
  match s.drop n with
  | [] => false
  | c :: _ => isWordChar c

/-- `re.sub(rf"\b{word}\b", repl, s, flags=re.IGNORECASE)` for a word that
starts and ends with word characters (every replaced name does): scan left
to right; at a position not preceded by a word character where the word
matches case-insensitively and is not followed by a word character, emit
the replacement and skip the match; otherwise copy one character.  The
`Nat` argument counts positions still covered by the previous match. -/
def replaceWordGo (word repl : List Char) : Nat → Bool → List Char → List Char
  | _, _, [] => []
  | k + 1, _, c :: cs => replaceWordGo word repl k (isWordChar c) cs
  | 0, prevW, c :: cs =>
    if !prevW && prefCI word (c :: cs) && !wordCharAfter word.length (c :: cs) then
      repl ++ replaceWordGo word repl (word.length - 1) (isWordChar c) cs
    else c :: replaceWordGo word repl 0 (isWordChar c) cs

/-- One whole-string word replacement. -/
def replaceWordCI (word repl s : List Char) : List Char :=
  replaceWordGo word repl 0 false s

/-- Apply a replacement table in order (Python iterates the dict in
insertion order, each `re.sub` over the whole current text). -/
def applyReplacements (rs : List (String × String)) (s : List Char) : List Char :=
  rs.foldl (fun acc r => replaceWordCI r.1.toList r.2.toList acc) s

/-- The `replacements` dict of `_bypass_vm_detection` (lines 115-123). -/
def vm_replacements : List (String × String) :=
  [("getfenv", "_safe_getfenv"), ("setfenv", "_safe_setfenv"),
   ("debug.getinfo", "_safe_debug_getinfo"),
   ("debug.getupvalue", "_safe_debug_getupvalue"),
   ("debug.setupvalue", "_safe_debug_setupvalue"),
   ("debug.getlocal", "_safe_debug_getlocal"),
   ("debug.setlocal", "_safe_debug_setlocal")]

/-- The `replacements` dict of `_bypass_execution_detection`
(lines 143-150). -/
def execution_replacements : List (String × String) :=
  [("loadstring", "_safe_loadstring"), ("dofile", "_safe_dofile"),
   ("loadfile", "_safe_loadfile"), ("require", "_safe_require"),
   ("pcall", "_safe_pcall"), ("xpcall", "_safe_xpcall")]

/-- The `replacements` dict of `_bypass_memory_detection` (lines 170-175). -/
def memory_replacements : List (String × String) :=
  [("collectgarbage", "_safe_collectgarbage"), ("gcinfo", "_safe_gcinfo"),
   ("getmetatable", "_safe_getmetatable"), ("setmetatable", "_safe_setmetatable")]

/-- `_generate_safe_debug_functions` (lines 213-262), verbatim. -/
def safe_debug_functions : String :=
  "\n-- Safe debug function replacements\nlocal function _safe_getfenv(level)\n    level = level or 1\n    return \x7b\n        script = \x7bName = \"Script\"\x7d,\n        game = \x7bName = \"Game\"\x7d,\n        workspace = \x7bName = \"Workspace\"\x7d\n    \x7d\nend\n\nlocal function _safe_setfenv(func, env)\n    return func\nend\n\nlocal function _safe_debug_getinfo(thread, what, count)\n    return \x7b\n        source = \"=[C]\",\n        short_src = \"=[C]\",\n        linedefined = 0,\n        lastlinedefined = 0,\n        what = \"C\",\n        currentline = 0,\n        name = nil,\n        namewhat = \"\",\n        istailcall = false,\n        isvararg = false,\n        nups = 0,\n        nparams = 0\n    \x7d\nend\n\nlocal function _safe_debug_getupvalue(func, index)\n    return nil, nil\nend\n\nlocal function _safe_debug_setupvalue(func, index, value)\n    return false\nend\n\nlocal function _safe_debug_getlocal(thread, level, index)\n    return nil, nil\nend\n\nlocal function _safe_debug_setlocal(thread, level, index, value)\n    return nil\nend\n"

/-- `_generate_safe_execution_functions` (lines 264-293), verbatim. -/
def safe_execution_functions : String :=
  "\n-- Safe execution function replacements\nlocal function _safe_loadstring(chunk, chunkname)\n    return function() return nil end, nil\nend\n\nlocal function _safe_dofile(filename)\n    return nil\nend\n\nlocal function _safe_loadfile(filename)\n    return function() return nil end, nil\nend\n\nlocal function _safe_require(modname)\n    return \x7b\x7d\nend\n\nlocal function _safe_pcall(func, ...)\n    local success, result = pcall(func, ...)\n    return success, result\nend\n\nlocal function _safe_xpcall(func, msgh, ...)\n    local success, result = pcall(func, ...)\n    return success, result\nend\n"

/-- `_generate_safe_memory_functions` (lines 295-314), verbatim. -/
def safe_memory_functions : String :=
  "\n-- Safe memory function replacements\nlocal function _safe_collectgarbage(opt, arg)\n    return 0\nend\n\nlocal function _safe_gcinfo()\n    return 0, 0\nend\n\nlocal function _safe_getmetatable(obj)\n    return nil\nend\n\nlocal function _safe_setmetatable(obj, mt)\n    return obj\nend\n"

/-- `_bypass_vm_detection` (lines 112-138): replace, then prepend the safe
definitions header and a newline. -/
def bypass_vm_detection (s : List Char) : List Char :=
  safe_debug_functions.toList ++ '\n' :: applyReplacements vm_replacements s

/-- `_bypass_execution_detection` (lines 140-165). -/
def bypass_execution_detection (s : List Char) : List Char :=
  safe_execution_functions.toList ++ '\n' :: applyReplacements execution_replacements s

/-- `_bypass_memory_detection` (lines 167-190). -/
def bypass_memory_detection (s : List Char) : List Char :=
  safe_memory_functions.toList ++ '\n' :: applyReplacements memory_replacements s

/-- The replacement text of `_bypass_io_detection` (line 206). -/
def blocked_comment : String := "-- BLOCKED: I/O operation not allowed in sandbox"

/-- The four `io_patterns` of `_bypass_io_detection` (lines 195-200):
`PREFIX[a-zA-Z_][a-zA-Z0-9_]*\s*\(`. -/
def io_block_pats : List (List RTok) :=
  [[litTok "io.", .idnt, .spStar, litTok "("],
   [litTok "os.", .idnt, .spStar, litTok "("],
   [litTok "file.", .idnt, .spStar, litTok "("],
   [litTok "fs.", .idnt, .spStar, litTok "("]]

/-- `re.sub` scanner for a token-pattern alternation: emit the replacement
for each non-overlapping match, copy other characters. -/
def subToksGo (alts : List (List RTok)) (repl : List Char) : Nat → List Char → List Char
  | _, [] => []
  | k + 1, _ :: cs => subToksGo alts repl k cs
  | 0, c :: cs =>
    match firstAltLen alts (c :: cs) with
    | some (l + 1) => repl ++ subToksGo alts repl l cs
    | _ => c :: subToksGo alts repl 0 cs

/-- `re.sub(pattern, repl, s)` for a token-pattern alternation. -/
def subToksAll (alts : List (List RTok)) (repl s : List Char) : List Char :=
  subToksGo alts repl 0 s

/-- `_bypass_io_detection` (lines 192-211): substitute each pattern in
turn over the whole current text. -/
def bypass_io_detection (s : List Char) : List Char :=
  io_block_pats.foldl (fun acc ts => subToksAll [ts] blocked_comment.toList acc) s

/-- The skip list of `_apply_obfuscation`'s `obfuscate_var` (line 344). -/
def obfuscation_skip_words : List String :=
  ["local", "function", "if", "then", "else", "end", "for", "while", "do",
   "repeat", "until", "break", "return", "game", "workspace", "script"]

/-- Match of `r"\b(local\s+)([a-zA-Z_][a-zA-Z0-9_]*)\b"` at the start of
`s` (the leading boundary is checked by the caller): returns the matched
whitespace run and the matched identifier. -/
def matchLocalVar (s : List Char) : Option (List Char × List Char) :=
  if prefOf "local".toList s then
    let after := s.drop 5
    let sp := after.takeWhile isSpaceChar
    if sp.isEmpty then none
    else
      match after.drop sp.length with
      | c :: cs =>
        if c.isAlpha || c == '_' then some (sp, c :: cs.takeWhile isWordChar)
        else none
      | [] => none
  else none

/-- The `re.sub` scan of `_apply_obfuscation` (lines 337-351): at each
boundary position, a `local <ident>` match either stays verbatim (skip
list) or has its identifier replaced by an underscore plus the next fresh
random name (drawn from the rng's name list; the source draws 8 random
lowercase letters).  The `Nat` counts positions covered by the previous
match. -/
def renameVarsGo : List (List Char) → Nat → Bool → List Char → List Char
  | _, _, _, [] => []
  | names, k + 1, _, c :: cs => renameVarsGo names k (isWordChar c) cs
  | names, 0, prevW, c :: cs =>
    if prevW then c :: renameVarsGo names 0 (isWordChar c) cs
    else
      match matchLocalVar (c :: cs) with
      | some r =>
        if obfuscation_skip_words.any (fun w => w.toList == lowerChars r.2) then
          "local".toList ++ r.1 ++ r.2 ++
            renameVarsGo names (4 + r.1.length + r.2.length) (isWordChar c) cs
        else
          "local".toList ++ r.1 ++ ('_' :: names.headD "aaaaaaaa".toList) ++
            renameVarsGo names.tail (4 + r.1.length + r.2.length) (isWordChar c) cs
      | none => c :: renameVarsGo names 0 (isWordChar c) cs

/-- Python `list.insert(pos, x)` (clamps an out-of-range position to the
end). -/
def pyInsert (x : List Char) : Nat → List (List Char) → List (List Char)
  | _, [] => [x]
  | 0, ys => x :: ys
  | n + 1, y :: ys => y :: pyInsert x n ys

/-- The random sources of `_apply_obfuscation`: fresh identifier bodies
for renamed variables, and the (position, text) of each inserted comment
line (the source draws 3 random positions and picks among 3 random
comment lines). -/
structure ObfsRng where
  names : List (List Char)
  inserts : List (Nat × List Char)

/-- The three comment insertions of `_apply_obfuscation` (lines 360-365). -/
def insertComments (instrs : List (Nat × List Char))
    (lines : List (List Char)) : List (List Char) :=
  instrs.foldl (fun acc ins => pyInsert ins.2 ins.1 acc) lines

/-- `_apply_obfuscation` (lines 334-367): rename local variables, then,
when the text has more than 10 lines, insert three comment lines at
random positions; rejoin with newlines. -/
def apply_obfuscation (rng : ObfsRng) (s : List Char) : List Char :=
  if 10 < (splitNL (renameVarsGo rng.names 0 false s)).length then
    joinNL (insertComments (rng.inserts.take 3)
      (splitNL (renameVarsGo rng.names 0 false s)))
  else joinNL (splitNL (renameVarsGo rng.names 0 false s))

/-- The fixed wrapper text before the `Generated:` timestamp (lines
371-373). -/
def wrapPart1 : String := "\n-- CIA Roblox Executor Safety Wrapper\n-- Generated: "

/-- The fixed wrapper text between the timestamp and the hash (line 374). -/
def wrapPart2 : String := "\n-- Script Hash: "

/-- The fixed wrapper text between the hash and the indented body
(lines 375-378). -/
def wrapPart3 : String :=
  "\n\nlocal function _safe_execute()\n    local success, result = pcall(function()\n"

/-- The fixed wrapper text after the indented body (lines 379-394). -/
def wrapPart4 : String :=
  "\n    end)\n    \n    if not success then\n        warn(\"Script execution error: \" .. tostring(result))\n        return false\n    end\n    \n    return true\nend\n\n-- Execute with error handling\nlocal execution_success = _safe_execute()\nif not execution_success then\n    warn(\"Script execution failed\")\nend\n"

/-- The per-line transformation of `_indent_script` (lines 397-408):
non-blank lines gain eight leading spaces, blank-ish lines become empty. -/
def indentLine (l : List Char) : List Char :=
  if (pyStrip l).isEmpty then [] else "        ".toList ++ l

/-- `_indent_script` (lines 397-408). -/
def indent_script (s : List Char) : List Char :=
  joinNL ((splitNL s).map indentLine)

/-- `_add_safety_wrapper` (lines 369-395): the f-string with the
timestamp, the content hash (computed by `hashlib` in the source,
modelled as a parameter) and the indented script body. -/
def add_safety_wrapper (ts hsh s : List Char) : List Char :=
  wrapPart1.toList ++ ts ++ wrapPart2.toList ++ hsh ++ wrapPart3.toList ++
    indent_script s ++ wrapPart4.toList

/-- `AntiCheatBypass.apply_bypass` (lines 66-94): detect; if nothing is
detected return the script unchanged; otherwise apply the bypass method of
each detected category in dict order, obfuscate when
`_should_obfuscate(original)` holds, and add the safety wrapper. -/
def apply_bypass (rng : ObfsRng) (ts hsh s : List Char) : List Char :=
  if (detectPatternsL s).total = 0 then s
  else
    let m1 := if (detectPatternsL s).vm_detection ≠ 0 then
      bypass_vm_detection s else s
    let m2 := if (detectPatternsL s).execution_detection ≠ 0 then
      bypass_execution_detection m1 else m1
    let m3 := if (detectPatternsL s).memory_detection ≠ 0 then
      bypass_memory_detection m2 else m2
    let m4 := if (detectPatternsL s).io_detection ≠ 0 then
      bypass_io_detection m3 else m3
    let m5 := if should_obfuscate s then apply_obfuscation rng m4 else m4
    add_safety_wrapper ts hsh m5

/-! ## Substring-preservation lemmas for the rewriting pipeline -/

/-- A prefix match survives extending the text on the right. -/
theorem prefOf_append (pat s t : List Char) (h : prefOf pat s = true) :
    prefOf pat (s ++ t) = true := by
  induction pat generalizing s with
  | nil => rfl
  | cons p ps ih =>
    cases s with
    | nil => simp [prefOf] at h
    | cons c cs =>
      simp only [List.cons_append, prefOf, Bool.and_eq_true] at h ⊢
      exact ⟨h.1, ih cs h.2⟩

/-- An occurrence survives extending the text on the right. -/
theorem occursIn_append_left (pat s t : List Char) (h : occursIn pat s = true) :
    occursIn pat (s ++ t) = true := by
  induction s with
  | nil =>
    cases pat with
    | nil => cases t <;> simp [occursIn, prefOf]
    | cons p ps => simp [occursIn, prefOf] at h
  | cons c cs ih =>
    simp only [List.cons_append, occursIn, Bool.or_eq_true] at h ⊢
    rcases h with h | h
    · exact Or.inl (prefOf_append _ _ _ h)
    · exact Or.inr (ih h)

/-- An occurrence survives extending the text on the left. -/
theorem occursIn_append_right (pat t s : List Char) (h : occursIn pat s = true) :
    occursIn pat (t ++ s) = true := by
  induction t with
  | nil => simpa using h
  | cons c cs ih =>
    simp only [List.cons_append, occursIn, Bool.or_eq_true]
    exact Or.inr ih

/-- An occurrence inside any member line occurs in the newline-join. -/
theorem occursIn_joinNL_of_mem (pat l : List Char) (L : List (List Char))
    (hl : l ∈ L) (h : occursIn pat l = true) :
    occursIn pat (joinNL L) = true := by
  induction L with
  | nil => cases hl
  | cons a ls ih =>
    rcases List.mem_cons.mp hl with rfl | hmem
    · cases ls with
      | nil => simpa [joinNL] using h
      | cons m ms =>
        show occursIn pat (l ++ '\n' :: joinNL (m :: ms)) = true
        exact occursIn_append_left _ _ _ h
    · cases ls with
      | nil => cases hmem
      | cons m ms =>
        show occursIn pat (a ++ '\n' :: joinNL (m :: ms)) = true
        have h3 : occursIn pat (['\n'] ++ joinNL (m :: ms)) = true :=
          occursIn_append_right _ _ _ (ih hmem)
        exact occursIn_append_right _ _ _ h3

/-- A prefix match is preserved by mapping a character function. -/
theorem prefOf_map (f : Char → Char) (pat s : List Char)
    (h : prefOf pat s = true) : prefOf (pat.map f) (s.map f) = true := by
  induction pat generalizing s with
  | nil => rfl
  | cons p ps ih =>
    cases s with
    | nil => simp [prefOf] at h
    | cons c cs =>
      simp only [List.map_cons, prefOf, Bool.and_eq_true, beq_iff_eq] at h ⊢
      exact ⟨by rw [h.1], ih cs h.2⟩

/-- An occurrence is preserved by mapping a character function. -/
theorem occursIn_map (f : Char → Char) (pat s : List Char)
    (h : occursIn pat s = true) : occursIn (pat.map f) (s.map f) = true := by
  induction s with
  | nil =>
    cases pat with
    | nil => rfl
    | cons p ps => simp [occursIn, prefOf] at h
  | cons c cs ih =>
    simp only [occursIn, Bool.or_eq_true, List.map_cons] at h ⊢
    rcases h with h | h
    · exact Or.inl (by simpa using prefOf_map f pat (c :: cs) h)
    · exact Or.inr (ih h)

/-- A nonempty pattern that occurs is counted at least once by the
findall scanner. -/
theorem countOccur_pos (pat s : List Char) (hne : pat ≠ [])
    (h : occursIn pat s = true) : 1 ≤ countOccur pat s := by
  induction s with
  | nil =>
    cases pat with
    | nil => exact absurd rfl hne
    | cons p ps => simp [occursIn, prefOf] at h
  | cons c cs ih =>
    simp only [occursIn, Bool.or_eq_true] at h
    unfold countOccur at ih ⊢
    rw [show countSkip pat 0 (c :: cs) =
      (if prefOf pat (c :: cs) then 1 + countSkip pat (pat.length - 1) cs
       else countSkip pat 0 cs) from rfl]
    rcases h with h | h
    · rw [if_pos h]; omega
    · by_cases hp : prefOf pat (c :: cs) = true
      · rw [if_pos hp]; omega
      · rw [if_neg (by simpa using hp)]
        exact ih h

/-- Python `list.insert` keeps every existing element. -/
theorem mem_pyInsert (a x : List Char) (n : Nat) (ys : List (List Char))
    (h : a ∈ ys) : a ∈ pyInsert x n ys := by
  induction ys generalizing n with
  | nil => cases h
  | cons y ts ih =>
    cases n with
    | zero => exact List.mem_cons_of_mem _ h
    | succ m =>
      rcases List.mem_cons.mp h with rfl | hmem
      · exact List.mem_cons_self _ _
      · exact List.mem_cons_of_mem _ (ih m hmem)

/-- The comment-insertion fold keeps every existing line. -/
theorem mem_insertComments (a : List Char) (instrs : List (Nat × List Char))
    (lines : List (List Char)) (h : a ∈ lines) :
    a ∈ insertComments instrs lines := by
  induction instrs generalizing lines with
  | nil => exact h
  | cons ins rest ih => exact ih _ (mem_pyInsert a ins.2 ins.1 lines h)

/-- A property of all elements survives a Python insert of an element that
has it. -/
theorem pyInsert_forall (P : List Char → Prop) (x : List Char) (n : Nat)
    (ys : List (List Char)) (hys : ∀ l ∈ ys, P l) (hx : P x) :
    ∀ l ∈ pyInsert x n ys, P l := by
  induction ys generalizing n with
  | nil =>
    intro l hl
    cases n with
    | zero =>
      have hl2 : l ∈ [x] := hl
      rw [List.mem_singleton.mp hl2]
      exact hx
    | succ m =>
      have hl2 : l ∈ [x] := hl
      rw [List.mem_singleton.mp hl2]
      exact hx
  | cons y ts ih =>
    intro l hl
    cases n with
    | zero =>
      rcases List.mem_cons.mp hl with rfl | hl2
      · exact hx
      · exact hys l hl2
    | succ m =>
      rcases List.mem_cons.mp hl with rfl | hl2
      · exact hys l (List.mem_cons_self _ _)
      · exact ih m (fun q hq => hys q (List.mem_cons_of_mem _ hq)) l hl2

/-- A property of all lines and of all inserted comments holds for every
line after the insertions. -/
theorem insertComments_forall (P : List Char → Prop)
    (instrs : List (Nat × List Char)) (lines : List (List Char))
    (hl : ∀ l ∈ lines, P l) (hi : ∀ p ∈ instrs, P p.2) :
    ∀ l ∈ insertComments instrs lines, P l := by
  induction instrs generalizing lines with
  | nil => exact hl
  | cons ins rest ih =>
    exact ih _
      (pyInsert_forall P ins.2 ins.1 lines hl (hi ins (List.mem_cons_self _ _)))
      (fun p hp => hi p (List.mem_cons_of_mem _ hp))

/-- A newline-free text splits into the single line it is. -/
theorem splitNL_no_newline (l : List Char) (h : ∀ c ∈ l, c ≠ '\n') :
    splitNL l = [l] := by
  induction l with
  | nil => rfl
  | cons c cs ih =>
    have hc : (c == '\n') = false :=
      beq_eq_false_iff_ne.mpr (h c (List.mem_cons_self _ _))
    have ih2 := ih (fun d hd => h d (List.mem_cons_of_mem _ hd))
    simp [splitNL, hc, ih2]

/-- Splitting after a newline-free head line peels exactly that line. -/
theorem splitNL_append_cons (l rest : List Char) (h : ∀ c ∈ l, c ≠ '\n') :
    splitNL (l ++ '\n' :: rest) = l :: splitNL rest := by
  induction l with
  | nil => simp [splitNL]
  | cons c cs ih =>
    have hc : (c == '\n') = false :=
      beq_eq_false_iff_ne.mpr (h c (List.mem_cons_self _ _))
    have ih2 := ih (fun d hd => h d (List.mem_cons_of_mem _ hd))
    simp [splitNL, hc, ih2]

/-- Splitting a newline-join of newline-free lines restores the lines. -/
theorem splitNL_joinNL (L : List (List Char)) (hne : L ≠ [])
    (h : ∀ l ∈ L, ∀ c ∈ l, c ≠ '\n') : splitNL (joinNL L) = L := by
  induction L with
  | nil => exact absurd rfl hne
  | cons a ls ih =>
    cases ls with
    | nil =>
      show splitNL (joinNL [a]) = [a]
      exact splitNL_no_newline a (h a (List.mem_cons_self _ _))
    | cons m ms =>
      show splitNL (a ++ '\n' :: joinNL (m :: ms)) = a :: m :: ms
      rw [splitNL_append_cons a _ (h a (List.mem_cons_self _ _))]
      rw [ih (by simp) (fun l hl => h l (List.mem_cons_of_mem _ hl))]

set_option maxRecDepth 4096

/-- C6 counterexample: at the exemplar script `debug.getinfo(1)` with a
concrete choice of the obfuscation randomness, timestamp and hash,
re-running detection on the rewritten script DOES return vm_detection
hits — the safe-replacement header that `apply_bypass` prepends itself
contains the substrings `getfenv`/`setfenv` that `_detect_patterns`
matches — so the claim that detection of the rewritten text is empty in
that category is false. -/
theorem C6_counterexample :
    (detectPatternsL (apply_bypass ⟨[], [(0, "-- padfillerx".toList),
        (0, "-- padfillery".toList), (0, "-- padfillerz".toList)]⟩
      "2025-06-01 00:00:00".toList "0123456789abcdef".toList
      "debug.getinfo(1)".toList)).vm_detection ≠ 0 := by decide

/-- C6 amended: for the exemplar script `debug.getinfo(1)`, for every
choice of the three inserted comment lines and positions (no inserted
comment contains a newline, as the source's generated comments never do)
and every timestamp and hash, the rewritten script is strictly longer
than the original and contains the safety-wrapper header marker, but
re-running detection on it still returns vm_detection hits: the safe
replacement definitions prepended by the vm bypass themselves contain the
substrings `getfenv`/`setfenv` that `_detect_patterns` matches.  (The
local-variable renaming never fires on this script — every `local` in the
prepended header is followed by the skip-listed word `function` — so the
unused random name stream is fixed to the empty list.) -/
theorem C6_bypass_exemplar (inserts : List (Nat × List Char)) (ts hsh : List Char)
    (hins : ∀ p ∈ inserts, ∀ c ∈ p.2, c ≠ '\n') :
    "debug.getinfo(1)".toList.length <
      (apply_bypass ⟨[], inserts⟩ ts hsh "debug.getinfo(1)".toList).length ∧
    occursIn safetyWrapperMarker.toList
      (apply_bypass ⟨[], inserts⟩ ts hsh "debug.getinfo(1)".toList) = true ∧
    (detectPatternsL (apply_bypass ⟨[], inserts⟩ ts hsh
      "debug.getinfo(1)".toList)).vm_detection ≠ 0 := by
  have h0 : apply_bypass ⟨[], inserts⟩ ts hsh "debug.getinfo(1)".toList =
      add_safety_wrapper ts hsh (apply_obfuscation ⟨[], inserts⟩
        (bypass_vm_detection "debug.getinfo(1)".toList)) := rfl
  have hren : renameVarsGo [] 0 false
      (bypass_vm_detection "debug.getinfo(1)".toList) =
      bypass_vm_detection "debug.getinfo(1)".toList := by decide
  have h2 : apply_obfuscation ⟨[], inserts⟩
      (bypass_vm_detection "debug.getinfo(1)".toList) =
      joinNL (insertComments (inserts.take 3)
        (splitNL (bypass_vm_detection "debug.getinfo(1)".toList))) := by
    show (if 10 < (splitNL (renameVarsGo [] 0 false
          (bypass_vm_detection "debug.getinfo(1)".toList))).length
      then joinNL (insertComments (inserts.take 3)
        (splitNL (renameVarsGo [] 0 false
          (bypass_vm_detection "debug.getinfo(1)".toList))))
      else joinNL (splitNL (renameVarsGo [] 0 false
        (bypass_vm_detection "debug.getinfo(1)".toList)))) = _
    rw [hren]
    rw [if_pos (by decide)]
  refine ⟨?_, ?_, ?_⟩
  · rw [h0, h2]
    unfold add_safety_wrapper
    simp only [List.length_append]
    have l0 : "debug.getinfo(1)".toList.length = 16 := by decide
    have l1 : 16 < wrapPart1.toList.length := by decide
    omega
  · rfl
  · rw [h0, h2]
    have hHLline : "local function _safe_getfenv(level)".toList ∈
        splitNL (bypass_vm_detection "debug.getinfo(1)".toList) := by decide
    have hHLmem : "local function _safe_getfenv(level)".toList ∈
        insertComments (inserts.take 3)
          (splitNL (bypass_vm_detection "debug.getinfo(1)".toList)) :=
      mem_insertComments _ _ _ hHLline
    have hMnl : ∀ l ∈ insertComments (inserts.take 3)
        (splitNL (bypass_vm_detection "debug.getinfo(1)".toList)),
        ∀ c ∈ l, c ≠ '\n' :=
      insertComments_forall _ _ _ (by decide)
        (fun p hp => hins p (List.take_subset _ _ hp))
    have hMne : insertComments (inserts.take 3)
        (splitNL (bypass_vm_detection "debug.getinfo(1)".toList)) ≠ [] := by
      intro hemp
      rw [hemp] at hHLmem
      exact absurd hHLmem (List.not_mem_nil _)
    have hsplit : splitNL (joinNL (insertComments (inserts.take 3)
        (splitNL (bypass_vm_detection "debug.getinfo(1)".toList)))) =
        insertComments (inserts.take 3)
          (splitNL (bypass_vm_detection "debug.getinfo(1)".toList)) :=
      splitNL_joinNL _ hMne hMnl
    have hoccHL : occursIn "getfenv".toList
        (indentLine "local function _safe_getfenv(level)".toList) = true := by
      decide
    have hoccIndent : occursIn "getfenv".toList
        (indent_script (joinNL (insertComments (inserts.take 3)
          (splitNL (bypass_vm_detection "debug.getinfo(1)".toList))))) = true := by
      unfold indent_script
      rw [hsplit]
      exact occursIn_joinNL_of_mem _ _ _
        (List.mem_map_of_mem indentLine hHLmem) hoccHL
    have hoccOut : occursIn "getfenv".toList
        (add_safety_wrapper ts hsh (joinNL (insertComments (inserts.take 3)
          (splitNL (bypass_vm_detection "debug.getinfo(1)".toList))))) = true := by
      unfold add_safety_wrapper
      exact occursIn_append_left _ _ _ (occursIn_append_right _ _ _ hoccIndent)
    have hlow : occursIn "getfenv".toList
        (lowerChars (add_safety_wrapper ts hsh (joinNL (insertComments
          (inserts.take 3)
          (splitNL (bypass_vm_detection "debug.getinfo(1)".toList)))))) = true := by
      have h := occursIn_map Char.toLower "getfenv".toList _ hoccOut
      rw [show ("getfenv".toList.map Char.toLower) = "getfenv".toList
        from by decide] at h
      exact h
    have hcnt : 1 ≤ countOccur "getfenv".toList
        (lowerChars (add_safety_wrapper ts hsh (joinNL (insertComments
          (inserts.take 3)
          (splitNL (bypass_vm_detection "debug.getinfo(1)".toList)))))) :=
      countOccur_pos _ _ (by decide) hlow
    show catCount vm_detection_pats (add_safety_wrapper ts hsh
      (joinNL (insertComments (inserts.take 3)
        (splitNL (bypass_vm_detection "debug.getinfo(1)".toList))))) ≠ 0
    unfold catCount vm_detection_pats
    simp only [List.map_cons, List.map_nil, List.sum_cons, List.sum_nil]
    omega

/-- C6 witness: the amended statement instantiated at one concrete comment
insertion, timestamp and hash. -/
theorem C6_bypass_exemplar_witness :
    "debug.getinfo(1)".toList.length <
      (apply_bypass ⟨[], [(2, "-- q7".toList)]⟩ "t0".toList "h0".toList
        "debug.getinfo(1)".toList).length ∧
    occursIn safetyWrapperMarker.toList
      (apply_bypass ⟨[], [(2, "-- q7".toList)]⟩ "t0".toList "h0".toList
        "debug.getinfo(1)".toList) = true ∧
    (detectPatternsL (apply_bypass ⟨[], [(2, "-- q7".toList)]⟩ "t0".toList
      "h0".toList "debug.getinfo(1)".toList)).vm_detection ≠ 0 :=
  C6_bypass_exemplar [(2, "-- q7".toList)] "t0".toList "h0".toList (by decide)
